import Mathlib

/-!
Shallow embedding of the Scoundrel dungeon-crawl card game engine
(`src/main.rs`) and proofs about its state machine and scoring rules.

Machine integers (`u8` health, weights, `usize` lengths) are modelled as
`Nat`; the two places where the Rust code performs a non-checked `u8`
addition (`heal`, the win score) carry an explicit `% 256`, matching
release-mode wrapping semantics.  Rust's `saturating_sub` is `Nat`
subtraction, which truncates at zero.  The external decision source
(`dialoguer` confirms and selects) is modelled as three total streams of
answers, consumed at exactly the program points where the Rust code calls
`interact()`.
-/

/-- Card suits, as in the `cardpack` deck used by the program. -/
inductive Suit
  | spades
  | clubs
  | diamonds
  | hearts
deriving DecidableEq, Fintype

/-- Card ranks of the French deck used by the program. -/
inductive Rank
  | two
  | three
  | four
  | five
  | six
  | seven
  | eight
  | nine
  | ten
  | jack
  | queen
  | king
  | ace
deriving DecidableEq, Fintype

/-- A playing card: the pair of a rank and a suit (`cardpack::Card`). -/
structure Card where
  rank : Rank
  suit : Suit
deriving DecidableEq, Fintype

/-- The numeric game weight of a rank (`fn weight` in `main.rs`): numeric
ranks map to their face value, `T`=10, `J`=11, `Q`=12, `K`=13, `A`=14. -/
def Rank.weight : Rank → Nat
  | .two => 2
  | .three => 3
  | .four => 4
  | .five => 5
  | .six => 6
  | .seven => 7
  | .eight => 8
  | .nine => 9
  | .ten => 10
  | .jack => 11
  | .queen => 12
  | .king => 13
  | .ace => 14

/-- Error kinds of the engine (`enum Error` in `main.rs`). -/
inductive GError
  | DungeonFinished
  | RoomUnfinished
  | InvalidCardSuit
deriving DecidableEq

/-- Game outcome (`enum Outcome`). -/
inductive Outcome
  | Won
  | Lost
deriving DecidableEq

/-- Final result surface (`struct GameResult`). -/
structure GameResult where
  outcome : Outcome
  score : Int
deriving DecidableEq

/-- The whole game state (`struct Game`): dungeon pile, equipped weapon
weight, weakest-monster-killed marker, the no-consecutive-avoid flag, the
room pile, and the player's health (a `u8`, in game reachable states
always at most 20). -/
structure Game where
  dungeon : List Card
  weapon : Option Nat
  weakest_killed : Option Nat
  just_avoided_room : Bool
  room : List Card
  health : Nat
deriving DecidableEq

/-- Maximum health (`MAX_HEALTH`). -/
def MAX_HEALTH : Nat := 20

/-- Room capacity (`ROOM_SIZE`). -/
def ROOM_SIZE : Nat := 4

/-- `Game::equip`: sets the weapon and clears the weakest-killed marker. -/
def equip (g : Game) (weapon : Nat) : Game :=
  { g with weapon := some weapon, weakest_killed := none }

/-- Whether the equipped weapon may currently be used against a monster of
the given weight: no monster killed with it yet, or the current monster is
strictly weaker than the last one killed (`self.weakest_killed.map(|prev|
monster < prev).unwrap_or(true)` in `Game::fight`). -/
def fightEligible (g : Game) (monster : Nat) : Bool :=
  (g.weakest_killed.map fun prev => decide (monster < prev)).getD true

/-- `Game::fight`, with the "use weapon?" confirmation as the explicit
argument `u`.  `blocked` is the weapon weight when a weapon is equipped,
eligible and the confirmation is positive, else 0; damage is
`monster.saturating_sub(blocked)` and health decreases by the damage,
saturating at 0 (`Nat` subtraction truncates exactly like `saturating_sub`). -/
def fight (g : Game) (monster : Nat) (u : Bool) : Game :=
  match g.weapon with
  | none => { g with health := g.health - monster }
  | some weapon =>
    if fightEligible g monster && u then
      { g with weakest_killed := some monster, health := g.health - (monster - weapon) }
    else
      { g with health := g.health - monster }

/-- `Game::heal`: `self.health = MAX_HEALTH.min(self.health + potion)`.
The `u8` addition is not checked in the Rust source; `% 256` models its
release-mode wrapping semantics. -/
def heal (g : Game) (potion : Nat) : Game :=
  { g with health := min MAX_HEALTH ((g.health + potion) % 256) }

/-- `Game::enter`: fails with `RoomUnfinished` when the room still holds
more than one card, with `DungeonFinished` when the dungeon is empty, and
otherwise draws `min(dungeon length, ROOM_SIZE - room length)` cards from
the front of the dungeon and appends them to the room. -/
def enter (g : Game) : Except GError Game :=
  if 1 < g.room.length then
    Except.error GError.RoomUnfinished
  else if g.dungeon.isEmpty then
    Except.error GError.DungeonFinished
  else
    Except.ok { g with
      dungeon := g.dungeon.drop (min g.dungeon.length (ROOM_SIZE - g.room.length)),
      room := g.room ++ g.dungeon.take (min g.dungeon.length (ROOM_SIZE - g.room.length)) }

/-- The external Decision Oracle, as three total streams of answers:
`avoid` for the "avoid?" confirmations, `sel` for the card selections, and
`use` for the "use weapon?" confirmations.  Each stream is consumed in
order at exactly the program points where `main.rs` calls `interact()`. -/
structure Ora where
  avoid : Nat → Bool
  sel : Nat → Nat
  use : Nat → Bool

/-- How many answers of each stream have been consumed so far. -/
structure OState where
  a : Nat
  s : Nat
  u : Nat
deriving DecidableEq

/-- `Game::apply_card`, dispatching on the suit, threading the oracle:
the "use weapon?" confirmation is consumed exactly when a weapon is
equipped and it is eligible (the Rust `&&` short-circuits past the
`Confirm` otherwise). -/
def applyCardO (g : Game) (c : Card) (o : Ora) (ost : OState) : Game × OState :=
  match c.suit with
  | .diamonds => (equip g c.rank.weight, ost)
  | .hearts => (heal g c.rank.weight, ost)
  | .spades =>
    if g.weapon.isSome && fightEligible g c.rank.weight then
      (fight g c.rank.weight (o.use ost.u), { ost with u := ost.u + 1 })
    else
      (fight g c.rank.weight false, ost)
  | .clubs =>
    if g.weapon.isSome && fightEligible g c.rank.weight then
      (fight g c.rank.weight (o.use ost.u), { ost with u := ost.u + 1 })
    else
      (fight g c.rank.weight false, ost)

/-- The loss score (`Game::play`, `Outcome::Lost` branch): the negated sum
of the weights of every Spades or Clubs card still in the dungeon.  The
Rust code sums into a `u8`; `% 256` models its release-mode wrapping. -/
def monsterSum (d : List Card) : Nat :=
  ((d.filter fun c => c.suit == Suit.spades || c.suit == Suit.clubs).map
    fun c => c.rank.weight).sum

/-- Score returned with `Outcome::Lost`. -/
def lossScore (d : List Card) : Int :=
  -((monsterSum d % 256 : Nat) : Int)

/-- Score returned with `Outcome::Won` (`Game::play`): current health plus
the resolved card's weight when that card is a Hearts card, computed in
`u8` (`% 256`) and cast to `i32`. -/
def winScore (h : Nat) (c : Card) : Int :=
  (((h + if c.suit = Suit.hearts then c.rank.weight else 0) % 256 : Nat) : Int)

/-- Outcome of one pass of the inner resolution loop body in `Game::play`. -/
inductive StepOut
  | lost (score : Int)
  | won (score : Int)
  | next (g : Game)
deriving DecidableEq

/-- One pass of the body of the `while self.room.len() > 1` loop of
`Game::play`: look up the selected card, apply it, return `Lost` when
health reached 0 (the resolved card is still in the room at that moment),
otherwise remove the resolved card from the room and return `Won` when
dungeon and room are now both empty; otherwise continue.  `none` models
the `unwrap` panic on an out-of-range selection, which the interactive
select cannot produce. -/
def resolveStep (g : Game) (i : Nat) (o : Ora) (ost : OState) : Option (StepOut × OState) :=
  match g.room[i]? with
  | none => none
  | some card =>
    if (applyCardO g card o ost).1.health = 0 then
      some (StepOut.lost (lossScore (applyCardO g card o ost).1.dungeon),
            (applyCardO g card o ost).2)
    else if ((applyCardO g card o ost).1.dungeon.isEmpty &&
             ((applyCardO g card o ost).1.room.eraseIdx i).isEmpty) then
      some (StepOut.won (winScore (applyCardO g card o ost).1.health card),
            (applyCardO g card o ost).2)
    else
      some (StepOut.next { (applyCardO g card o ost).1 with
                            room := (applyCardO g card o ost).1.room.eraseIdx i },
            (applyCardO g card o ost).2)

/-- Outcome of one pass of the outer `loop` of `Game::play`. -/
inductive IterOut
  | fail (e : GError)
  | panic
  | avoided (g : Game) (ost : OState)
  | finished (r : GameResult) (ost : OState)
  | toContinue (g : Game) (ost : OState)
deriving DecidableEq

/-- The `while self.room.len() > 1` loop of `Game::play`, with fuel (the
room shrinks by one card per pass, so any fuel at least the room size is
enough; `panic` is only ever reached on fuel exhaustion or a bad
selection). -/
def roomLoop : Nat → Game → Ora → OState → IterOut
  | 0, _, _, _ => IterOut.panic
  | fuel + 1, g, o, ost =>
    if 1 < g.room.length then
      match resolveStep g (o.sel ost.s) o { ost with s := ost.s + 1 } with
      | none => IterOut.panic
      | some (StepOut.lost sc, ost1) => IterOut.finished ⟨Outcome.Lost, sc⟩ ost1
      | some (StepOut.won sc, ost1) => IterOut.finished ⟨Outcome.Won, sc⟩ ost1
      | some (StepOut.next g1, ost1) => roomLoop fuel g1 o ost1
    else
      IterOut.toContinue g ost

/-- One pass of the outer `loop` of `Game::play`: enter the room
(propagating its error), then, unless the previous room was just avoided,
consume an avoid confirmation; an avoidance appends the whole room to the
end of the dungeon, clears the room and sets `just_avoided_room`; a room
that is actually played resets the flag and runs the resolution loop. -/
def playIter (g : Game) (o : Ora) (ost : OState) : IterOut :=
  match enter g with
  | Except.error e => IterOut.fail e
  | Except.ok g1 =>
    if g1.just_avoided_room then
      roomLoop g1.room.length { g1 with just_avoided_room := false } o ost
    else if o.avoid ost.a then
      IterOut.avoided
        { g1 with dungeon := g1.dungeon ++ g1.room, room := [], just_avoided_room := true }
        { ost with a := ost.a + 1 }
    else
      roomLoop g1.room.length { g1 with just_avoided_room := false } o
        { ost with a := ost.a + 1 }

/-- `Game::play` as a whole: iterate `playIter` until a result or an error
surfaces, with fuel (`none` on fuel exhaustion or a modelled panic). -/
def play : Nat → Game → Ora → OState → Option (Except GError GameResult)
  | 0, _, _, _ => none
  | fuel + 1, g, o, ost =>
    match playIter g o ost with
    | IterOut.fail e => some (Except.error e)
    | IterOut.panic => none
    | IterOut.finished r _ => some (Except.ok r)
    | IterOut.avoided g1 ost1 => play fuel g1 o ost1
    | IterOut.toContinue g1 ost1 => play fuel g1 o ost1

/-- `fn fold_in`: pushes one card per (suit, rank) pair, suit-major, onto
the given pile. -/
def fold_in (cards : List Card) (suits : List Suit) (ranks : List Rank) : List Card :=
  suits.foldl (fun acc suit => ranks.foldl (fun acc2 rank => acc2 ++ [⟨rank, suit⟩]) acc) cards

/-- The French ranks in the order `Rank::generate_french_ranks` yields
them (ace down to two). -/
def allRanks : List Rank :=
  [Rank.ace, Rank.king, Rank.queen, Rank.jack, Rank.ten, Rank.nine, Rank.eight,
   Rank.seven, Rank.six, Rank.five, Rank.four, Rank.three, Rank.two]

/-- The numbered ranks used for the red suits (`TEN` down to `TWO`). -/
def numberedRanks : List Rank :=
  [Rank.ten, Rank.nine, Rank.eight, Rank.seven, Rank.six, Rank.five, Rank.four,
   Rank.three, Rank.two]

/-- The black suits, in the order used by `Game::setup`. -/
def blackSuits : List Suit := [Suit.spades, Suit.clubs]

/-- The red suits, in the order used by `Game::setup`. -/
def redSuits : List Suit := [Suit.hearts, Suit.diamonds]

/-- The dungeon built by `Game::setup` before shuffling: all 13 ranks of
Spades and Clubs, then ranks ten down to two of Hearts and Diamonds. -/
def setupDeck : List Card :=
  fold_in (fold_in [] blackSuits allRanks) redSuits numberedRanks

/-- Abbreviation for building a concrete card. -/
def mk (r : Rank) (s : Suit) : Card := ⟨r, s⟩

/-- A concrete shuffle outcome (a permutation of `setupDeck`) used to
exhibit reachable end-of-dungeon states: the player equips the ten of
Diamonds, kills all Spades in strictly decreasing order with it, heals,
equips the nine of Diamonds, kills all Clubs in strictly decreasing
order, then resolves the remaining Diamonds and Hearts; the two of Hearts
is held over in every room and the three of Hearts is the last dungeon
card. -/
def runDungeon : List Card :=
  [mk .ten .diamonds, mk .ace .spades, mk .king .spades, mk .two .hearts,
   mk .queen .spades, mk .jack .spades, mk .ten .spades, mk .nine .spades,
   mk .eight .spades, mk .seven .spades, mk .six .spades, mk .five .spades,
   mk .four .spades, mk .three .spades, mk .two .spades, mk .ten .hearts,
   mk .nine .hearts, mk .nine .diamonds, mk .ace .clubs, mk .king .clubs,
   mk .queen .clubs, mk .jack .clubs, mk .ten .clubs, mk .nine .clubs,
   mk .eight .clubs, mk .seven .clubs, mk .six .clubs, mk .five .clubs,
   mk .four .clubs, mk .three .clubs, mk .two .clubs, mk .eight .diamonds,
   mk .seven .diamonds, mk .six .diamonds, mk .five .diamonds, mk .four .diamonds,
   mk .three .diamonds, mk .two .diamonds, mk .eight .hearts, mk .seven .hearts,
   mk .six .hearts, mk .five .hearts, mk .four .hearts, mk .three .hearts]

/-- The decision stream for the run on `runDungeon`: never avoid, select
the first card in the first room and the second card afterwards (keeping
the two of Hearts held over), always use the weapon when asked. -/
def runOra : Ora :=
  { avoid := fun _ => false
    sel := fun n => if n < 3 then 0 else 1
    use := fun _ => true }

/-- The initial state of the run: the fields `Game::setup` produces, with
`runDungeon` as the shuffle outcome. -/
def runStart : Game × OState :=
  ({ dungeon := runDungeon, weapon := none, weakest_killed := none,
     just_avoided_room := false, room := [], health := MAX_HEALTH },
   { a := 0, s := 0, u := 0 })

/-- One outer-loop pass viewed as a state transformer (defined only while
the game continues). -/
def stepState (x : Game × OState) (o : Ora) : Option (Game × OState) :=
  match playIter x.1 o x.2 with
  | IterOut.avoided g ost => some (g, ost)
  | IterOut.toContinue g ost => some (g, ost)
  | _ => none

/-- Iterated outer-loop passes. -/
def stepsState (o : Ora) : Nat → Game × OState → Option (Game × OState)
  | 0, x => some x
  | n + 1, x => (stepState x o).bind (stepsState o n)

/-- The state of the run after its 14 full rooms: one card left in the
dungeon, the held-over two of Hearts in the room. -/
def c2state : Option (Game × OState) := stepsState runOra 14 runStart

/-- A one-card room over a five-card dungeon, for the `enter` witness. -/
def gEnterW : Game :=
  { dungeon := [mk .two .spades, mk .three .spades, mk .four .spades,
                mk .five .spades, mk .six .spades],
    weapon := none, weakest_killed := none, just_avoided_room := false,
    room := [mk .two .hearts], health := 20 }

/-- Player state of end-to-end scenario B: health 5, weapon of weight 6
equipped, no kill history. -/
def gB : Game :=
  { dungeon := [], weapon := some 6, weakest_killed := none,
    just_avoided_room := false, room := [], health := 5 }

/-- A heal or fight operation, as applied by the rule engine to the
player state (the health-touching subset of `Game::apply_card`). -/
inductive HFOp
  | heal (w : Nat)
  | fight (m : Nat) (u : Bool)
deriving DecidableEq

/-- Folds a sequence of heal and fight operations over the game state. -/
def runHF (g : Game) : List HFOp → Game
  | [] => g
  | HFOp.heal w :: ops => runHF (heal g w) ops
  | HFOp.fight m u :: ops => runHF (fight g m u) ops

/-- Modelled from the spec: "health increases by `weight`, capped at the
maximum of 20 (saturating addition)" — `u8` saturating addition of the
potion weight, then the cap at `MAX_HEALTH`. -/
def healSpecSat (h p : Nat) : Nat := min MAX_HEALTH (min 255 (h + p))

/-- Player state of end-to-end scenario D: health 3, nothing equipped. -/
def gD : Game :=
  { dungeon := [], weapon := none, weakest_killed := none,
    just_avoided_room := false, room := [], health := 3 }

/-- A full-health player state, for the heal counterexample. -/
def gFull : Game :=
  { dungeon := [], weapon := none, weakest_killed := none,
    just_avoided_room := false, room := [], health := 20 }

/-- A fight against a monster of the given weight, with the oracle's
"use weapon?" answer. -/
structure FightOp where
  monster : Nat
  u : Bool
deriving DecidableEq

/-- Folds a sequence of fights (no equips in between) over the game state. -/
def runFights (g : Game) : List FightOp → Game
  | [] => g
  | op :: ops => runFights (fight g op.monster op.u) ops

/-- Whether `Game::fight` actually consumes the weapon on this fight: a
weapon is equipped, it is eligible against this monster, and the
confirmation is positive (`blocked` is the weapon weight exactly then). -/
def weaponUsed (g : Game) (m : Nat) (u : Bool) : Bool :=
  g.weapon.isSome && fightEligible g m && u

/-- Player state with kill history: weapon of weight 6, weakest kill 4. -/
def gC6 : Game :=
  { dungeon := [], weapon := some 6, weakest_killed := some 4,
    just_avoided_room := false, room := [], health := 5 }

/-- The room of end-to-end scenario E: a lone nine of Hearts, dungeon
empty, health 6 before resolving. -/
def gE : Game :=
  { dungeon := [], weapon := none, weakest_killed := none,
    just_avoided_room := false, room := [mk .nine .hearts], health := 6 }

/-- State of scenario E after the heal: health 15. -/
def gE1 : Game :=
  { dungeon := [], weapon := none, weakest_killed := none,
    just_avoided_room := false, room := [mk .nine .hearts], health := 15 }

/-- An oracle that always declines and selects 0 (never consulted in the
witness steps). -/
def oIdle : Ora :=
  { avoid := fun _ => false, sel := fun _ => 0, use := fun _ => false }

/-- A dying player: health 5, no weapon, a weight-5 Spades in the room and
one monster of weight 10 left in the dungeon. -/
def gL : Game :=
  { dungeon := [mk .ten .spades, mk .five .hearts], weapon := none, weakest_killed := none,
    just_avoided_room := false, room := [mk .five .spades, mk .two .hearts], health := 5 }

/-- State after the fatal fight. -/
def gL1 : Game :=
  { dungeon := [mk .ten .spades, mk .five .hearts], weapon := none, weakest_killed := none,
    just_avoided_room := false, room := [mk .five .spades, mk .two .hearts], health := 0 }

/-- A fresh four-card-dungeon state for the avoidance witness. -/
def gW : Game :=
  { dungeon := [mk .two .spades, mk .three .spades, mk .four .spades, mk .five .spades],
    weapon := none, weakest_killed := none, just_avoided_room := false,
    room := [], health := 20 }

/-- The state after avoiding the first room of `gW`: the entered room went
back to the dungeon's end and the flag is set. -/
def gW1 : Game :=
  { dungeon := [mk .two .spades, mk .three .spades, mk .four .spades, mk .five .spades],
    weapon := none, weakest_killed := none, just_avoided_room := true,
    room := [], health := 20 }

/-- An oracle that always avoids. -/
def oAvoid : Ora :=
  { avoid := fun _ => true, sel := fun _ => 0, use := fun _ => false }

/-- The room size observed right after the one `enter` that drains the
dungeon in the `runDungeon` run. -/
def c2post : Option Nat :=
  (c2state.bind fun s => (enter s.1).toOption).map fun g => g.room.length

/-- The prompt-rendering state right after that drained-dungeon `enter`:
`just_avoided_room` is false, so `Game::play` immediately renders the
status prompt for the avoid confirmation. -/
def c10g : Option Game := c2state.bind fun s => (enter s.1).toOption

example :
    fight { dungeon := [], weapon := none, weakest_killed := none,
            just_avoided_room := false, room := [], health := 20 } 10 false
      = { dungeon := [], weapon := none, weakest_killed := none,
          just_avoided_room := false, room := [], health := 10 } := by decide

example :
    (heal { dungeon := [], weapon := none, weakest_killed := none,
            just_avoided_room := false, room := [], health := 3 } 7).health = 10 := by decide

example :
    (heal { dungeon := [], weapon := none, weakest_killed := none,
            just_avoided_room := false, room := [], health := 20 } 250).health = 14 := by decide

example : setupDeck.length = 44 := by decide

example : (c2state.map fun s => s.1.dungeon) = some [mk .three .hearts] := by decide

example : (c2state.map fun s => (s.1.room, s.1.health)) = some ([mk .two .hearts], 20) := by decide

example :
    ((c2state.bind fun s => (enter s.1).toOption).map fun g => (g.dungeon.length, g.room.length))
      = some (0, 2) := by decide

theorem fight_dungeon (g : Game) (m : Nat) (u : Bool) : (fight g m u).dungeon = g.dungeon := by
  unfold fight
  cases g.weapon with
  | none => rfl
  | some w =>
    dsimp only
    split <;> rfl

theorem fight_flag (g : Game) (m : Nat) (u : Bool) :
    (fight g m u).just_avoided_room = g.just_avoided_room := by
  unfold fight
  cases g.weapon with
  | none => rfl
  | some w =>
    dsimp only
    split <;> rfl

theorem fight_health_le (g : Game) (m : Nat) (u : Bool) : (fight g m u).health ≤ g.health := by
  unfold fight
  cases g.weapon with
  | none => exact Nat.sub_le _ _
  | some w =>
    dsimp only
    split <;> exact Nat.sub_le _ _

theorem applyCardO_dungeon (g : Game) (c : Card) (o : Ora) (ost : OState) :
    (applyCardO g c o ost).1.dungeon = g.dungeon := by
  unfold applyCardO
  cases c.suit with
  | diamonds => rfl
  | hearts => rfl
  | spades =>
    dsimp only
    split <;> exact fight_dungeon _ _ _
  | clubs =>
    dsimp only
    split <;> exact fight_dungeon _ _ _

theorem applyCardO_flag (g : Game) (c : Card) (o : Ora) (ost : OState) :
    (applyCardO g c o ost).1.just_avoided_room = g.just_avoided_room := by
  unfold applyCardO
  cases c.suit with
  | diamonds => rfl
  | hearts => rfl
  | spades =>
    dsimp only
    split <;> exact fight_flag _ _ _
  | clubs =>
    dsimp only
    split <;> exact fight_flag _ _ _

theorem rank_weight_bounds : ∀ r : Rank, 2 ≤ r.weight ∧ r.weight ≤ 14 := by decide

/-- Claim C7: `Game::enter` fails with `RoomUnfinished` exactly when the
room holds more than one card, fails with `DungeonFinished` exactly when
the room holds at most one card and the dungeon is empty, and otherwise
draws `min(dungeon length, 4 - room length)` cards from the front of the
dungeon, appending them to the room and leaving the remaining dungeon
order unchanged (the drawn prefix is removed, the rest is kept in order). -/
theorem enter_contract (g : Game) :
    (enter g = Except.error GError.RoomUnfinished ↔ 1 < g.room.length) ∧
    (enter g = Except.error GError.DungeonFinished ↔ g.room.length ≤ 1 ∧ g.dungeon = []) ∧
    (g.room.length ≤ 1 → g.dungeon ≠ [] →
      enter g = Except.ok { g with
        dungeon := g.dungeon.drop (min g.dungeon.length (ROOM_SIZE - g.room.length)),
        room := g.room ++ g.dungeon.take (min g.dungeon.length (ROOM_SIZE - g.room.length)) }) := by
  refine ⟨⟨?_, ?_⟩, ⟨?_, ?_⟩, ?_⟩
  · intro h
    by_contra hn
    unfold enter at h
    rw [if_neg hn] at h
    by_cases h2 : g.dungeon.isEmpty
    · rw [if_pos h2] at h
      exact GError.noConfusion (Except.error.inj h)
    · rw [if_neg h2] at h
      exact Except.noConfusion h
  · intro h
    unfold enter
    rw [if_pos h]
  · intro h
    unfold enter at h
    by_cases h1 : 1 < g.room.length
    · rw [if_pos h1] at h
      exact absurd (Except.error.inj h) (by decide)
    · rw [if_neg h1] at h
      by_cases h2 : g.dungeon.isEmpty
      · exact ⟨by omega, List.isEmpty_iff.mp h2⟩
      · rw [if_neg h2] at h
        exact Except.noConfusion h
  · rintro ⟨hle, hde⟩
    unfold enter
    rw [if_neg (by omega), if_pos (by simp [hde])]
  · intro hle hne
    unfold enter
    rw [if_neg (by omega), if_neg (by simp [List.isEmpty_iff]; exact hne)]

/-- Concrete instance of the `enter` contract: from a one-card room and a
five-card dungeon, `enter` draws three cards from the front. -/
theorem enter_contract_witness :
    enter gEnterW = Except.ok { gEnterW with
      dungeon := [mk .five .spades, mk .six .spades],
      room := [mk .two .hearts, mk .two .spades, mk .three .spades, mk .four .spades] } := by
  have h := (enter_contract gEnterW).2.2 (by decide) (by decide)
  rw [h]
  rfl

/-- Claim C4: `Game::fight` resolution.  With no weapon equipped, or with
an ineligible weapon, or with the "use weapon?" confirmation declined, the
damage is the full monster weight.  When the weapon is used, the
weakest-killed marker is set to the current monster's weight and the
damage is the saturating difference `monster - weapon` (`Nat` subtraction
truncates at zero, like `saturating_sub`).  In every case health decreases
by the damage, saturating at 0. -/
theorem fight_resolution (g : Game) (m : Nat) (u : Bool) :
    (g.weapon = none → fight g m u = { g with health := g.health - m }) ∧
    (∀ w, g.weapon = some w → (fightEligible g m = false ∨ u = false) →
      fight g m u = { g with health := g.health - m }) ∧
    (∀ w, g.weapon = some w → fightEligible g m = true → u = true →
      fight g m u = { g with weakest_killed := some m, health := g.health - (m - w) }) := by
  refine ⟨?_, ?_, ?_⟩
  · intro h
    unfold fight
    rw [h]
  · intro w hw hdecl
    unfold fight
    rw [hw]
    dsimp only
    rw [if_neg]
    rcases hdecl with h | h <;> simp [h]
  · intro w hw he hu
    unfold fight
    rw [hw]
    dsimp only
    rw [if_pos (by simp [he, hu])]

/-- Concrete instance of the fight contract (scenario B): fighting a
monster of weight 4 with the weight-6 weapon deals no damage and records
4 as the weakest monster killed. -/
theorem fight_resolution_witness :
    fight gB 4 true = { gB with weakest_killed := some 4, health := gB.health - (4 - 6) } :=
  (fight_resolution gB 4 true).2.2 6 rfl rfl rfl

theorem heal_health_le (g : Game) (w : Nat) : (heal g w).health ≤ 20 :=
  Nat.min_le_left _ _

theorem runHF_health_le : ∀ (ops : List HFOp) (g : Game), g.health ≤ 20 →
    (runHF g ops).health ≤ 20 := by
  intro ops
  induction ops with
  | nil => intro g h; exact h
  | cons op ops ih =>
    intro g h
    cases op with
    | heal w => exact ih _ (heal_health_le g w)
    | fight m u => exact ih _ (le_trans (fight_health_le g m u) h)

/-- Claim C5 (amended): for every sequence of heal and fight operations
and all input weights (arbitrary `u8` values), health stays within
[0, 20]; `heal` adds the weight with `u8` wrapping (`% 256`) and then caps
at 20, which agrees with the spec's "saturating addition capped at 20"
whenever `health + weight ≤ 255` — in particular for every weight the deck
can produce; `fight` subtracts with saturation at 0. -/
theorem health_bounds (g : Game) (hg : g.health ≤ 20) (ops : List HFOp) :
    (runHF g ops).health ≤ 20 ∧
    (∀ p, g.health + p ≤ 255 →
      (heal g p).health = min MAX_HEALTH (g.health + p) ∧
      (heal g p).health = healSpecSat g.health p) := by
  refine ⟨runHF_health_le ops g hg, ?_⟩
  intro p hp
  unfold heal healSpecSat MAX_HEALTH
  dsimp only
  rw [Nat.mod_eq_of_lt (by omega)]
  exact ⟨rfl, by rw [Nat.min_eq_right hp]⟩

/-- Concrete instance of the health bounds (scenario D): after an unarmed
fight of weight 25 health is still at most 20, and healing 7 from health 3
is the capped addition min 20 (3 + 7) = 10. -/
theorem health_bounds_witness :
    (runHF gD [HFOp.fight 25 false]).health ≤ 20 ∧
    (heal gD 7).health = min MAX_HEALTH (gD.health + 7) := by
  have h := health_bounds gD (by decide) [HFOp.fight 25 false]
  exact ⟨h.1, (h.2 7 (by decide)).1⟩

/-- Counterexample to claim C5 as stated: for the (non-deck) `u8` weight
250 at health 20, the code's heal wraps `20 + 250` to 14 and health
becomes 14, whereas the claimed "saturating addition capped at 20" yields
20. -/
theorem health_bounds_counterexample :
    (heal gFull 250).health = 14 ∧ healSpecSat gFull.health 250 = 20 ∧
    (heal gFull 250).health ≠ healSpecSat gFull.health 250 := by decide

theorem fight_weakest_le (g : Game) (m : Nat) (u : Bool) (w : Nat)
    (hw : g.weakest_killed = some w) :
    ∃ v, (fight g m u).weakest_killed = some v ∧ v ≤ w := by
  unfold fight
  cases g.weapon with
  | none => exact ⟨w, hw, le_refl w⟩
  | some wp =>
    dsimp only
    by_cases h : (fightEligible g m && u) = true
    · rw [if_pos h]
      have he : fightEligible g m = true := by
        rw [Bool.and_eq_true] at h
        exact h.1
      have hm : m < w := by
        unfold fightEligible at he
        rw [hw] at he
        simpa using he
      exact ⟨m, rfl, le_of_lt hm⟩
    · rw [if_neg h]
      exact ⟨w, hw, le_refl w⟩

theorem runFights_weakest_le : ∀ (ops : List FightOp) (g : Game) (w : Nat),
    g.weakest_killed = some w →
    ∃ v, (runFights g ops).weakest_killed = some v ∧ v ≤ w := by
  intro ops
  induction ops with
  | nil => intro g w hw; exact ⟨w, hw, le_refl w⟩
  | cons op ops ih =>
    intro g w hw
    obtain ⟨v1, h1, hvw⟩ := fight_weakest_le g op.monster op.u w hw
    obtain ⟨v2, h2, hv21⟩ := ih _ _ h1
    exact ⟨v2, h2, le_trans hv21 hvw⟩

/-- Claim C6: weapon-degradation monotonicity.  Once the equipped weapon
has killed a monster of weight `w` (the weakest-killed marker holds `w`),
then along any further sequence of fights with no equip in between, the
weapon is only ever consumed against monsters of weight strictly less
than `w`; and `Game::equip` clears the weakest-killed marker, making the
weapon eligible against monsters of any weight again. -/
theorem weapon_degradation :
    (∀ (g : Game) (w : Nat) (ops : List FightOp) (m : Nat) (u : Bool),
      g.weakest_killed = some w →
      weaponUsed (runFights g ops) m u = true → m < w) ∧
    (∀ (g : Game) (wp : Nat),
      (equip g wp).weakest_killed = none ∧ ∀ m, fightEligible (equip g wp) m = true) := by
  constructor
  · intro g w ops m u hw hused
    obtain ⟨v, hv, hvw⟩ := runFights_weakest_le ops g w hw
    have he : fightEligible (runFights g ops) m = true := by
      unfold weaponUsed at hused
      rw [Bool.and_eq_true, Bool.and_eq_true] at hused
      exact hused.1.2
    unfold fightEligible at he
    rw [hv] at he
    have hm : m < v := by simpa using he
    omega
  · intro g wp
    exact ⟨rfl, fun m => rfl⟩

/-- Concrete instance of weapon degradation: with weakest-killed 4, a
consumed fight must be against weight < 4, and re-equipping clears the
marker. -/
theorem weapon_degradation_witness :
    (3 < 4) ∧ (equip gC6 9).weakest_killed = none :=
  ⟨weapon_degradation.1 gC6 4 [] 3 true rfl rfl, (weapon_degradation.2 gC6 9).1⟩

/-- Claim C9: `Game::setup` builds a dungeon of exactly 44 cards — 26
black cards (Spades and Clubs) over all 13 ranks and 18 red cards
(Diamonds and Hearts) over only the numeric ranks 2–10, each exactly once
— and any shuffle outcome (any permutation of it) has the same length and
the same card multiset: only the order varies. -/
theorem dungeon_construction :
    setupDeck.length = 44 ∧
    (setupDeck.filter fun c => c.suit == Suit.spades || c.suit == Suit.clubs).length = 26 ∧
    (setupDeck.filter fun c => c.suit == Suit.diamonds || c.suit == Suit.hearts).length = 18 ∧
    (∀ c : Card, setupDeck.count c =
      if c.suit = Suit.spades ∨ c.suit = Suit.clubs ∨
         (2 ≤ c.rank.weight ∧ c.rank.weight ≤ 10) then 1 else 0) ∧
    (∀ d : List Card, d.Perm setupDeck →
      d.length = 44 ∧ ∀ c : Card, d.count c = setupDeck.count c) := by
  refine ⟨by decide, by decide, by decide, by decide, ?_⟩
  intro d hd
  exact ⟨hd.length_eq, fun c => hd.count_eq c⟩

/-- Concrete instance of the shuffle-invariance part: the reversed deck is
a permutation and still has 44 cards and the same counts. -/
theorem dungeon_construction_witness :
    setupDeck.reverse.length = 44 ∧
    setupDeck.reverse.count (mk .ace .spades) = setupDeck.count (mk .ace .spades) :=
  ⟨(dungeon_construction.2.2.2.2 setupDeck.reverse setupDeck.reverse_perm).1,
   (dungeon_construction.2.2.2.2 setupDeck.reverse setupDeck.reverse_perm).2 (mk .ace .spades)⟩

/-- Claim C1: win detection.  Whenever the resolution step of `Game::play`
resolves a card leaving nonzero health and, after removing the resolved
card from the room, both the dungeon and the room are empty, the step
terminates the game with outcome `Won` and score `winScore`, which (for
the healths the game can reach, at most 20) equals the current health
plus the resolved card's weight if and only if that card was a Hearts
card.  (Inside the full loop this branch sits under the
`room.len() > 1` guard, so a run can only meet it vacuously; the
property is settled for the loop body, the code the claim describes.) -/
theorem win_detection (g : Game) (i : Nat) (o : Ora) (ost : OState) (card : Card)
    (g1 : Game) (ost1 : OState)
    (hc : g.room[i]? = some card)
    (ha : applyCardO g card o ost = (g1, ost1))
    (hh : g1.health ≠ 0)
    (hd : g1.dungeon = [])
    (hr : g1.room.eraseIdx i = []) :
    resolveStep g i o ost = some (StepOut.won (winScore g1.health card), ost1) ∧
    (g1.health ≤ 20 →
      (winScore g1.health card = (g1.health : Int) + (card.rank.weight : Int) ↔
        card.suit = Suit.hearts)) := by
  constructor
  · simp only [resolveStep, hc]
    rw [ha]
    dsimp only
    rw [if_neg hh, if_pos (by simp [hd, hr])]
  · intro hle
    have h2 := (rank_weight_bounds card.rank).1
    have h14 := (rank_weight_bounds card.rank).2
    unfold winScore
    by_cases hs : card.suit = Suit.hearts
    · rw [if_pos hs]
      rw [Nat.mod_eq_of_lt (by omega)]
      simp only [hs, iff_true]
      push_cast
      ring
    · rw [if_neg hs]
      simp only [hs, iff_false]
      rw [Nat.add_zero, Nat.mod_eq_of_lt (by omega)]
      omega

/-- Concrete instance of win detection (scenario E): resolving the nine
of Hearts with post-heal health 15 empties dungeon and room and wins with
score 15 + 9 = 24. -/
theorem win_detection_witness :
    resolveStep gE 0 oIdle ⟨0, 0, 0⟩ = some (StepOut.won 24, ⟨0, 0, 0⟩) := by
  have h := (win_detection gE 0 oIdle ⟨0, 0, 0⟩ (mk .nine .hearts) gE1 ⟨0, 0, 0⟩
    rfl rfl (by decide) rfl rfl).1
  rw [h]
  rfl

/-- Claim C3: loss scoring.  Whenever a resolution step of `Game::play`
leaves health at 0, the step terminates the game with outcome `Lost` and
score `lossScore` of the dungeon at that moment: the negated sum of the
weights of the Spades and Clubs cards still in the dungeon (the summation
range excludes the room — in particular the just-resolved monster, still
in the room at this point — all already-resolved cards, and every
non-monster card); whenever that sum is at most 255 (every dungeon drawn
from the real 44-card deck sums to at most 208) the score is exactly its
negation. -/
theorem loss_scoring (g : Game) (i : Nat) (o : Ora) (ost : OState) (card : Card)
    (g1 : Game) (ost1 : OState)
    (hc : g.room[i]? = some card)
    (ha : applyCardO g card o ost = (g1, ost1))
    (hdead : g1.health = 0) :
    resolveStep g i o ost = some (StepOut.lost (lossScore g.dungeon), ost1) ∧
    (monsterSum g.dungeon ≤ 255 → lossScore g.dungeon = -(monsterSum g.dungeon : Int)) := by
  have hdun : g1.dungeon = g.dungeon := by
    have hfst := congrArg Prod.fst ha
    dsimp at hfst
    rw [← hfst]
    exact applyCardO_dungeon g card o ost
  constructor
  · simp only [resolveStep, hc]
    rw [ha]
    dsimp only
    rw [if_pos hdead, hdun]
  · intro h
    unfold lossScore
    rw [Nat.mod_eq_of_lt (by omega)]

/-- Concrete instance of loss scoring: the unarmed fight against the
weight-5 Spades kills the player; the score is minus the weight of the
single monster left in the dungeon (the Hearts card and the monster in
the room are excluded). -/
theorem loss_scoring_witness :
    resolveStep gL 0 oIdle ⟨0, 0, 0⟩ = some (StepOut.lost (-10), ⟨0, 0, 0⟩) ∧
    lossScore gL.dungeon = -10 := by
  have h := loss_scoring gL 0 oIdle ⟨0, 0, 0⟩ (mk .five .spades) gL1 ⟨0, 0, 0⟩ rfl rfl rfl
  refine ⟨?_, by decide⟩
  rw [h.1]
  rfl

theorem resolveStep_next_flag (g : Game) (i : Nat) (o : Ora) (ost : OState)
    (g2 : Game) (ost2 : OState)
    (h : resolveStep g i o ost = some (StepOut.next g2, ost2)) :
    g2.just_avoided_room = g.just_avoided_room := by
  unfold resolveStep at h
  cases hc : g.room[i]? with
  | none =>
    rw [hc] at h
    exact Option.noConfusion h
  | some card =>
    rw [hc] at h
    dsimp only at h
    split at h
    · simp at h
    · split at h
      · simp at h
      · simp only [Option.some.injEq, Prod.mk.injEq, StepOut.next.injEq] at h
        obtain ⟨h1, _⟩ := h
        rw [← h1]
        exact applyCardO_flag g card o ost

theorem playIter_error (g : Game) (o : Ora) (ost : OState) (e : GError)
    (he : enter g = Except.error e) : playIter g o ost = IterOut.fail e := by
  unfold playIter
  rw [he]

theorem playIter_ok (g : Game) (o : Ora) (ost : OState) (ge : Game)
    (he : enter g = Except.ok ge) :
    playIter g o ost =
      if ge.just_avoided_room then
        roomLoop ge.room.length { ge with just_avoided_room := false } o ost
      else if o.avoid ost.a then
        IterOut.avoided
          { ge with dungeon := ge.dungeon ++ ge.room, room := [], just_avoided_room := true }
          { ost with a := ost.a + 1 }
      else
        roomLoop ge.room.length { ge with just_avoided_room := false } o
          { ost with a := ost.a + 1 } := by
  unfold playIter
  rw [he]

theorem roomLoop_ne_avoided : ∀ (fuel : Nat) (g : Game) (o : Ora) (ost : OState)
    (g1 : Game) (ost1 : OState), roomLoop fuel g o ost ≠ IterOut.avoided g1 ost1 := by
  intro fuel
  induction fuel with
  | zero =>
    intro g o ost g1 ost1 h
    exact IterOut.noConfusion h
  | succ n ih =>
    intro g o ost g1 ost1 h
    rw [roomLoop] at h
    by_cases hr : 1 < g.room.length
    · rw [if_pos hr] at h
      cases hres : resolveStep g (o.sel ost.s) o { ost with s := ost.s + 1 } with
      | none =>
        rw [hres] at h
        exact IterOut.noConfusion h
      | some p =>
        obtain ⟨so, ost2⟩ := p
        cases so with
        | lost sc =>
          rw [hres] at h
          exact IterOut.noConfusion h
        | won sc =>
          rw [hres] at h
          exact IterOut.noConfusion h
        | next g2 =>
          rw [hres] at h
          exact ih _ _ _ _ _ h
    · rw [if_neg hr] at h
      exact IterOut.noConfusion h

theorem roomLoop_toContinue_flag : ∀ (fuel : Nat) (g : Game) (o : Ora) (ost : OState)
    (g1 : Game) (ost1 : OState),
    roomLoop fuel g o ost = IterOut.toContinue g1 ost1 →
    g1.just_avoided_room = g.just_avoided_room := by
  intro fuel
  induction fuel with
  | zero =>
    intro g o ost g1 ost1 h
    exact IterOut.noConfusion h
  | succ n ih =>
    intro g o ost g1 ost1 h
    rw [roomLoop] at h
    by_cases hr : 1 < g.room.length
    · rw [if_pos hr] at h
      cases hres : resolveStep g (o.sel ost.s) o { ost with s := ost.s + 1 } with
      | none =>
        rw [hres] at h
        exact IterOut.noConfusion h
      | some p =>
        obtain ⟨so, ost2⟩ := p
        cases so with
        | lost sc =>
          rw [hres] at h
          exact IterOut.noConfusion h
        | won sc =>
          rw [hres] at h
          exact IterOut.noConfusion h
        | next g2 =>
          rw [hres] at h
          rw [ih _ _ _ _ _ h]
          exact resolveStep_next_flag _ _ _ _ _ _ hres
    · rw [if_neg hr] at h
      cases h
      rfl

theorem enter_ok_flag (g ge : Game) (h : enter g = Except.ok ge) :
    ge.just_avoided_room = g.just_avoided_room := by
  unfold enter at h
  split at h
  · exact Except.noConfusion h
  · split at h
    · exact Except.noConfusion h
    · cases h
      rfl

theorem playIter_avoided_char (g : Game) (o : Ora) (ost : OState) (g1 : Game) (ost1 : OState)
    (h : playIter g o ost = IterOut.avoided g1 ost1) :
    g.just_avoided_room = false ∧ g1.just_avoided_room = true ∧
    ∃ ge, enter g = Except.ok ge ∧
      g1 = { ge with dungeon := ge.dungeon ++ ge.room, room := [],
                     just_avoided_room := true } := by
  cases he : enter g with
  | error e =>
    rw [playIter_error g o ost e he] at h
    exact IterOut.noConfusion h
  | ok ge =>
    rw [playIter_ok g o ost ge he] at h
    by_cases hf : ge.just_avoided_room = true
    · rw [if_pos hf] at h
      exact absurd h (roomLoop_ne_avoided _ _ _ _ _ _)
    · rw [if_neg hf] at h
      by_cases hav : o.avoid ost.a = true
      · rw [if_pos hav] at h
        cases h
        refine ⟨?_, rfl, ge, rfl, rfl⟩
        rw [← enter_ok_flag g ge he]
        exact Bool.not_eq_true _ ▸ hf
      · rw [if_neg hav] at h
        exact absurd h (roomLoop_ne_avoided _ _ _ _ _ _)

/-- Claim C8: no consecutive avoidance.  An avoidance pass of the outer
loop of `Game::play` can only happen when `just_avoided_room` is false,
and it appends the whole (post-`enter`) room to the end of the dungeon,
clears the room and sets the flag; when the flag is set no avoidance can
happen, and a pass that actually plays the room hands back the flag reset
to false — hence two avoidances never occur in adjacent passes. -/
theorem no_consecutive_avoidance (g : Game) (o : Ora) (ost : OState) :
    (∀ g1 ost1, playIter g o ost = IterOut.avoided g1 ost1 →
      g.just_avoided_room = false ∧ g1.just_avoided_room = true ∧
      ∃ ge, enter g = Except.ok ge ∧
        g1 = { ge with dungeon := ge.dungeon ++ ge.room, room := [],
                       just_avoided_room := true }) ∧
    (g.just_avoided_room = true →
      ∀ g1 ost1, playIter g o ost ≠ IterOut.avoided g1 ost1) ∧
    (∀ g1 ost1, playIter g o ost = IterOut.avoided g1 ost1 →
      ∀ g2 ost2, playIter g1 o ost1 ≠ IterOut.avoided g2 ost2) ∧
    (∀ g1 ost1, playIter g o ost = IterOut.toContinue g1 ost1 →
      g1.just_avoided_room = false) := by
  refine ⟨fun g1 ost1 h => playIter_avoided_char g o ost g1 ost1 h, ?_, ?_, ?_⟩
  · intro hf g1 ost1 h
    have h0 := (playIter_avoided_char g o ost g1 ost1 h).1
    rw [hf] at h0
    exact Bool.noConfusion h0
  · intro g1 ost1 h g2 ost2 h2
    have hf1 := (playIter_avoided_char g o ost g1 ost1 h).2.1
    have h0 := (playIter_avoided_char g1 o ost1 g2 ost2 h2).1
    rw [hf1] at h0
    exact Bool.noConfusion h0
  · intro g1 ost1 h
    cases he : enter g with
    | error e =>
      rw [playIter_error g o ost e he] at h
      exact IterOut.noConfusion h
    | ok ge =>
      rw [playIter_ok g o ost ge he] at h
      by_cases hf : ge.just_avoided_room = true
      · rw [if_pos hf] at h
        exact roomLoop_toContinue_flag _ _ _ _ _ _ h
      · rw [if_neg hf] at h
        by_cases hav : o.avoid ost.a = true
        · rw [if_pos hav] at h
          exact IterOut.noConfusion h
        · rw [if_neg hav] at h
          exact roomLoop_toContinue_flag _ _ _ _ _ _ h

/-- Concrete instance of the avoidance characterization: the first pass on
`gW` with an always-avoid oracle is an avoidance, so the pre-state flag was
false and the post-state flag is true (blocking the next avoidance). -/
theorem no_consecutive_avoidance_witness :
    gW.just_avoided_room = false ∧ gW1.just_avoided_room = true := by
  have h := (no_consecutive_avoidance gW oAvoid ⟨0, 0, 0⟩).1 gW1 ⟨1, 0, 0⟩ (by decide)
  exact ⟨h.1, h.2.1⟩

/-- Claim C2 (violation exhibit): from the initial state on the shuffle
outcome `runDungeon` — a permutation of the constructed deck — 14 passes
of the play loop (no avoids, weapon always used) reach the reachable state
with one card in the dungeon and the held-over card in the room; `enter`
then succeeds drawing the single remaining card, and the room afterwards
holds 2 cards, not `ROOM_SIZE` = 4: the drained-dungeon success the spec
allows, on which the code's `debug_assert_eq!(self.room.len(), ROOM_SIZE)`
fails. -/
theorem room_size_assert_violation :
    runDungeon.Perm setupDeck ∧
    (c2state.map fun s => (s.1.dungeon.length, s.1.room.length, s.1.health)) = some (1, 1, 20) ∧
    c2post = some 2 ∧ c2post ≠ some ROOM_SIZE := by
  refine ⟨by decide, by decide, by decide, by decide⟩

/-- Claim C10 (violation exhibit): in the reachable prompt-rendering state
after the drained-dungeon `enter` of the `runDungeon` run, the dungeon
holds 0 cards and the room 2, so dungeon size plus room size is 2 < 4 and
the status line's `dungeon.len() - (ROOM_SIZE - room.len())` underflows
(`ROOM_SIZE - room.len()` exceeds `dungeon.len()`). -/
theorem status_line_underflow :
    (c10g.map fun g => g.just_avoided_room) = some false ∧
    (c10g.map fun g => (g.dungeon.length, g.room.length)) = some (0, 2) ∧
    (c10g.map fun g => decide (ROOM_SIZE ≤ g.dungeon.length + g.room.length)) = some false ∧
    (c10g.map fun g => decide (g.dungeon.length < ROOM_SIZE - g.room.length)) = some true := by
  refine ⟨by decide, by decide, by decide, by decide⟩
